import Mathlib

/-!
Verification of the zulip-write-only-proxy specification against a shallow
embedding of the code.

The client records and the `JSONRepository` (get / list / put / put_admin,
file-backed persistence) are exercised by `tests/test_repositories.py`; the
implementation module itself is not among the provided sources, so those
definitions are modelled from the spec (each such definition says so in its
doc comment).  The API router (`routers/api.py`) is present and the
definitions in the `api` namespace are translated from it directly.
-/

set_option autoImplicit false

namespace ZulipProxy

/-- Modelled from the spec: the `ScopedClient` record variant
(`models` module, not among the provided sources): `key` (unique
identifier, doubles as credential), `stream` (destination channel),
`proposal_no` (integer proposal identifier). -/
structure ScopedClient where
  key : String
  stream : String
  proposal_no : Int
deriving DecidableEq, Repr

/-- Modelled from the spec: the `AdminClient` record variant
(`models` module, not among the provided sources): `key` plus an
`admin` flag (always true for this variant). -/
structure AdminClient where
  key : String
  admin : Bool
deriving DecidableEq, Repr

/-- Modelled from the spec: the polymorphic client record, a tagged union
of the two variants with an explicit discriminator. -/
inductive ClientRecord where
  | scoped (c : ScopedClient)
  | admin (c : AdminClient)
deriving DecidableEq, Repr

/-- The key of a record, common to both variants. -/
def ClientRecord.key : ClientRecord → String
  | .scoped c => c.key
  | .admin c => c.key

/-- Error taxonomy of the repository, from the spec (§7): `NotFound`
(surfaced as `KeyError` in the tests), `DuplicateKey` (surfaced as
`ValueError`), `CorruptStore` (fatal on load). -/
inductive RepoError where
  | NotFound
  | DuplicateKey
  | CorruptStore
deriving DecidableEq, Repr

/-- A structured-text (JSON-like) value: the persisted representation of
the store is one of these. -/
inductive Json where
  | str (s : String)
  | num (n : Int)
  | bool (b : Bool)
  | arr (xs : List Json)
  | obj (fields : List (String × Json))
deriving Repr

/-- Look a key up in a serialized object's field list. -/
def jsonLookup (fields : List (String × Json)) (k : String) : Option Json :=
  (fields.find? (fun p => p.1 == k)).map (fun p => p.2)

/-- Modelled from the spec (§6): each record serializes its discriminator
(`scoped` vs `admin`) alongside its variant-specific fields. -/
def serializeRecord : ClientRecord → Json
  | .scoped c => .obj [("kind", .str "scoped"), ("key", .str c.key),
      ("stream", .str c.stream), ("proposal_no", .num c.proposal_no)]
  | .admin c => .obj [("kind", .str "admin"), ("key", .str c.key),
      ("admin", .bool c.admin)]

/-- Modelled from the spec (§9): on load the discriminator is checked
explicitly; a record that cannot be parsed or fails schema validation
yields `none`. -/
def parseRecord : Json → Option ClientRecord
  | .obj fields =>
    match jsonLookup fields "kind" with
    | some (.str "scoped") =>
      match jsonLookup fields "key", jsonLookup fields "stream",
          jsonLookup fields "proposal_no" with
      | some (.str k), some (.str st), some (.num p) =>
          some (.scoped ⟨k, st, p⟩)
      | _, _, _ => none
    | some (.str "admin") =>
      match jsonLookup fields "key", jsonLookup fields "admin" with
      | some (.str k), some (.bool b) => some (.admin ⟨k, b⟩)
      | _, _ => none
    | _ => none
  | _ => none

/-- Parse a list of serialized records, failing if any entry fails. -/
def parseEntries : List Json → Option (List ClientRecord)
  | [] => some []
  | j :: js =>
    match parseRecord j with
    | some r => (parseEntries js).map (fun rs => r :: rs)
    | none => none

/-- Modelled from the spec (§6): the store file is an ordered collection
of serialized records. -/
def serializeStore (records : List ClientRecord) : Json :=
  .arr (records.map serializeRecord)

/-- Modelled from the spec (§4.1, §7): loading the persisted
representation; any parse or record-schema failure is a failure of the
whole load. -/
def parseStore : Json → Option (List ClientRecord)
  | .arr xs => parseEntries xs
  | _ => none

/-- Modelled from the spec (§4.1): the state of a `JSONRepository` — the
in-memory index (records in insertion order) together with the persisted
file contents, which every mutation rewrites in full. -/
structure RepoState where
  records : List ClientRecord
  file : Json

namespace JSONRepository

/-- Modelled from the spec (§4.1 construction contract): constructing a
repository against a path where no file exists (`none`) creates a valid
empty persisted store; against an existing file, the full set of records
is loaded, and a file that cannot be parsed is fatal (`CorruptStore`). -/
def construct (disk : Option Json) : Except RepoError RepoState :=
  match disk with
  | none => .ok ⟨[], serializeStore []⟩
  | some j =>
    match parseStore j with
    | some rs => .ok ⟨rs, j⟩
    | none => .error .CorruptStore

/-- Modelled from the spec (§4.1): `list()` returns all records in
insertion order. -/
def list (s : RepoState) : List ClientRecord :=
  s.records

/-- Modelled from the spec (§4.1): `get(key)` resolves a key against the
in-memory index, failing with `NotFound` when absent; it is a pure
function of the state (no side effect, no implicit creation). -/
def get (s : RepoState) (k : String) : Except RepoError ClientRecord :=
  match s.records.find? (fun r => r.key == k) with
  | some r => .ok r
  | none => .error .NotFound

/-- Modelled from the spec (§4.1): `put(record)` inserts a new scoped
record, failing with `DuplicateKey` (leaving the state untouched) when
the key exists; on success the whole mapping is re-serialized to the
file. Returns the outcome together with the resulting state. -/
def put (s : RepoState) (c : ScopedClient) :
    Except RepoError Unit × RepoState :=
  if s.records.any (fun r => r.key == c.key) then
    (.error .DuplicateKey, s)
  else
    let rs := s.records ++ [ClientRecord.scoped c]
    (.ok (), ⟨rs, serializeStore rs⟩)

/-- Modelled from the spec (§4.1): `put_admin(record)`, the same
insertion contract for the administrative variant. -/
def put_admin (s : RepoState) (c : AdminClient) :
    Except RepoError Unit × RepoState :=
  if s.records.any (fun r => r.key == c.key) then
    (.error .DuplicateKey, s)
  else
    let rs := s.records ++ [ClientRecord.admin c]
    (.ok (), ⟨rs, serializeStore rs⟩)

/-- Insertion of either variant through its variant's entry point. -/
def putRecord (s : RepoState) : ClientRecord → Except RepoError Unit × RepoState
  | .scoped c => put s c
  | .admin c => put_admin s c

/-- Run a sequence of insertions, stopping at the first failure. -/
def insertAll (s : RepoState) : List ClientRecord → Except RepoError RepoState
  | [] => .ok s
  | r :: rs =>
    match putRecord s r with
    | (.ok _, s2) => insertAll s2 rs
    | (.error e, _) => .error e

end JSONRepository

namespace api

/-- From `models/zulip.py`: the `PropagateMode` enumeration. -/
inductive PropagateMode where
  | change_one
  | change_all
  | change_later
deriving DecidableEq, Repr

/-- Outcome of a route handler: either a value or an
`fastapi.HTTPException` with a status code and a detail string. -/
inductive RouteResult (α : Type) where
  | ok (a : α)
  | httpError (status : Nat) (detail : String)
deriving DecidableEq, Repr

/-- Python truthiness of an optional string (`str | None`): `None` and
the empty string are falsy, every other string is truthy. -/
def truthyStr : Option String → Bool
  | none => false
  | some s => !(s == "")

/-- From `routers/api.py` (`get_client`): the authentication dependency.
The `X-API-key` header has `auto_error=False`, so an absent header
arrives as `None` and is rejected with 403 before the client store is
consulted; a present key that `services.get_client` cannot resolve
(`KeyError`) is rejected with 401. The store lookup is modelled as a
key search over the client records. -/
def get_client (key : Option String) (store : List ClientRecord) :
    RouteResult ClientRecord :=
  match key with
  | none => .httpError 403 "Not authenticated"
  | some k =>
    match store.find? (fun r => r.key == k) with
    | some c => .ok c
    | none => .httpError 401 "Unauthorised"

/-- The arguments of a `client.update_message(topic, content,
message_id, propagate_mode)` call, recording that (and how) the
external collaborator was invoked. -/
structure UpdateMessageCall where
  topic : Option String
  content : Option String
  message_id : Int
  propagate_mode : PropagateMode
deriving DecidableEq, Repr

/-- From `routers/api.py` (`update_message`): if `content or topic` is
truthy the call is forwarded to `client.update_message`, otherwise the
route fails with HTTP 400 and the client is never called. -/
def update_message (message_id : Int) (propagate_mode : PropagateMode)
    (content : Option String) (topic : Option String) :
    RouteResult UpdateMessageCall :=
  if truthyStr content || truthyStr topic then
    .ok ⟨topic, content, message_id, propagate_mode⟩
  else
    .httpError 400
      ("Either content (update message text) or topic (rename message topic) "
        ++ "must be provided")

/-- The serialized fields of a `ScopedClient` response body, in
declaration order. -/
def scopedClientFields (c : ScopedClient) : List (String × Json) :=
  [("key", .str c.key), ("stream", .str c.stream),
    ("proposal_no", .num c.proposal_no)]

/-- From `routers/api.py` (`get_me`): the `/me` route returns the
resolved client serialized with `response_model_exclude=\x7b"key"\x7d`,
i.e. the response body is the record's fields with the `key` field
removed. -/
def get_me (c : ScopedClient) : Json :=
  .obj ((scopedClientFields c).filter (fun p => !(p.1 == "key")))

end api

/-- The state produced by constructing a repository against a path with
no existing file: no records, an empty persisted store. -/
def newRepo : RepoState := ⟨[], serializeStore []⟩

/-! ## Shared lemmas -/

theorem parseRecord_serializeRecord (r : ClientRecord) :
    parseRecord (serializeRecord r) = some r := by
  cases r <;> rfl

theorem parseEntries_map_serializeRecord (l : List ClientRecord) :
    parseEntries (l.map serializeRecord) = some l := by
  induction l with
  | nil => rfl
  | cons r l ih =>
    simp [parseEntries, parseRecord_serializeRecord, ih]

theorem parseStore_serializeStore (l : List ClientRecord) :
    parseStore (serializeStore l) = some l := by
  simp [parseStore, serializeStore, parseEntries_map_serializeRecord]

theorem putRecord_fresh (s : RepoState) (r : ClientRecord)
    (h : ∀ q ∈ s.records, q.key ≠ r.key) :
    JSONRepository.putRecord s r =
      (.ok (), ⟨s.records ++ [r], serializeStore (s.records ++ [r])⟩) := by
  have hany : s.records.any (fun q => q.key == r.key) = false := by
    rw [List.any_eq_false]
    intro q hq
    simpa using h q hq
  rcases r with c | c
  · simp only [JSONRepository.putRecord, JSONRepository.put]
    rw [if_neg]
    simp only [Bool.not_eq_true]
    exact hany
  · simp only [JSONRepository.putRecord, JSONRepository.put_admin]
    rw [if_neg]
    simp only [Bool.not_eq_true]
    exact hany

theorem putRecord_dup (s : RepoState) (r : ClientRecord)
    (h : ∃ q ∈ s.records, q.key = r.key) :
    JSONRepository.putRecord s r = (.error .DuplicateKey, s) := by
  have hany : s.records.any (fun q => q.key == r.key) = true := by
    rw [List.any_eq_true]
    obtain ⟨q, hq, hk⟩ := h
    exact ⟨q, hq, by simpa using hk⟩
  rcases r with c | c
  · simp only [JSONRepository.putRecord, JSONRepository.put]
    rw [if_pos (show (s.records.any fun r => r.key == c.key) = true from hany)]
  · simp only [JSONRepository.putRecord, JSONRepository.put_admin]
    rw [if_pos (show (s.records.any fun r => r.key == c.key) = true from hany)]

theorem insertAll_ok (rs : List ClientRecord) (s : RepoState)
    (hfile : s.file = serializeStore s.records)
    (hdisj : ∀ q ∈ s.records, ∀ r ∈ rs, q.key ≠ r.key)
    (hdist : rs.Pairwise (fun a b => a.key ≠ b.key)) :
    JSONRepository.insertAll s rs =
      .ok ⟨s.records ++ rs, serializeStore (s.records ++ rs)⟩ := by
  induction rs generalizing s with
  | nil =>
    cases s with
    | mk records file =>
      simp [JSONRepository.insertAll]
      simpa using hfile
  | cons r rs ih =>
    have hfresh : ∀ q ∈ s.records, q.key ≠ r.key := fun q hq =>
      hdisj q hq r (List.mem_cons_self r rs)
    rw [JSONRepository.insertAll, putRecord_fresh s r hfresh]
    have hstep := ih ⟨s.records ++ [r], serializeStore (s.records ++ [r])⟩
      rfl
      (by
        intro q hq r2 hr2
        rcases List.mem_append.1 hq with hq | hq
        · exact hdisj q hq r2 (List.mem_cons_of_mem r hr2)
        · have hqr : q = r := by simpa using hq
          subst hqr
          exact (List.pairwise_cons.1 hdist).1 r2 hr2)
      ((List.pairwise_cons.1 hdist).2)
    simpa [List.append_assoc] using hstep

theorem putRecord_cases (s : RepoState) (r : ClientRecord) :
    JSONRepository.putRecord s r = (.error .DuplicateKey, s) ∨
    JSONRepository.putRecord s r =
      (.ok (), ⟨s.records ++ [r], serializeStore (s.records ++ [r])⟩) := by
  rcases r with c | c
  · simp only [JSONRepository.putRecord, JSONRepository.put]
    by_cases hc : (s.records.any fun q => q.key == c.key) = true
    · left
      rw [if_pos hc]
    · right
      rw [if_neg hc]
  · simp only [JSONRepository.putRecord, JSONRepository.put_admin]
    by_cases hc : (s.records.any fun q => q.key == c.key) = true
    · left
      rw [if_pos hc]
    · right
      rw [if_neg hc]

theorem insertAll_file_inv (rs : List ClientRecord) (s s2 : RepoState)
    (hfile : s.file = serializeStore s.records)
    (h : JSONRepository.insertAll s rs = .ok s2) :
    s2.file = serializeStore s2.records := by
  induction rs generalizing s with
  | nil =>
    simp only [JSONRepository.insertAll, Except.ok.injEq] at h
    rw [← h]
    exact hfile
  | cons r rs ih =>
    rw [JSONRepository.insertAll] at h
    rcases putRecord_cases s r with hc | hc
    · rw [hc] at h
      exact absurd h (by simp)
    · rw [hc] at h
      exact ih ⟨s.records ++ [r], serializeStore (s.records ++ [r])⟩ rfl h

/-! ## Claim theorems -/

/-- C1: for every record `r` (scoped or admin) inserted through its
variant's entry point (`put` / `put_admin`) into a repository whose store
does not already contain `r.key`, the insertion succeeds and a subsequent
`get(r.key)` returns a record equal to `r` — same variant, same values of
all fields. -/
theorem put_get_roundtrip (s : RepoState) (r : ClientRecord)
    (h : ∀ q ∈ s.records, q.key ≠ r.key) :
    ∃ s2, JSONRepository.putRecord s r = (.ok (), s2) ∧
      JSONRepository.get s2 r.key = .ok r := by
  refine ⟨_, putRecord_fresh s r h, ?_⟩
  have h1 : s.records.find? (fun q => q.key == r.key) = none := by
    rw [List.find?_eq_none]
    intro q hq
    simpa using h q hq
  simp [JSONRepository.get, List.find?_append, h1, List.find?]

/-- Closed instance of `put_get_roundtrip`: inserting the scoped client
`client3` of the test suite into an empty repository and reading it back. -/
theorem put_get_roundtrip_witness :
    ∃ s2, JSONRepository.putRecord newRepo
        (.scoped ⟨"client3", "Test Stream 3", 3⟩) = (.ok (), s2) ∧
      JSONRepository.get s2 "client3" =
        .ok (.scoped ⟨"client3", "Test Stream 3", 3⟩) :=
  put_get_roundtrip newRepo (.scoped ⟨"client3", "Test Stream 3", 3⟩)
    (fun _ hq => nomatch hq)

/-- C2: inserting a record whose key already exists fails with
`DuplicateKey` and leaves the store unchanged: the state (hence `list()`)
and the persisted file are identical before and after the failed
attempt. -/
theorem put_duplicate_unchanged (s : RepoState) (r : ClientRecord)
    (h : ∃ q ∈ s.records, q.key = r.key) :
    (JSONRepository.putRecord s r).1 = .error .DuplicateKey ∧
      (JSONRepository.putRecord s r).2 = s ∧
      JSONRepository.list (JSONRepository.putRecord s r).2 =
        JSONRepository.list s ∧
      (JSONRepository.putRecord s r).2.file = s.file := by
  rw [putRecord_dup s r h]
  exact ⟨rfl, rfl, rfl, rfl⟩

/-- Closed instance of `put_duplicate_unchanged`: re-inserting key
`client1` into a store that already holds it. -/
theorem put_duplicate_unchanged_witness :
    (JSONRepository.putRecord
        ⟨[ClientRecord.scoped ⟨"client1", "Test Stream 1", 1⟩],
          serializeStore [ClientRecord.scoped ⟨"client1", "Test Stream 1", 1⟩]⟩
        (.scoped ⟨"client1", "Other Stream", 7⟩)).1 =
      .error .DuplicateKey ∧
    (JSONRepository.putRecord
        ⟨[ClientRecord.scoped ⟨"client1", "Test Stream 1", 1⟩],
          serializeStore [ClientRecord.scoped ⟨"client1", "Test Stream 1", 1⟩]⟩
        (.scoped ⟨"client1", "Other Stream", 7⟩)).2 =
      ⟨[ClientRecord.scoped ⟨"client1", "Test Stream 1", 1⟩],
        serializeStore [ClientRecord.scoped ⟨"client1", "Test Stream 1", 1⟩]⟩ ∧
    JSONRepository.list (JSONRepository.putRecord
        ⟨[ClientRecord.scoped ⟨"client1", "Test Stream 1", 1⟩],
          serializeStore [ClientRecord.scoped ⟨"client1", "Test Stream 1", 1⟩]⟩
        (.scoped ⟨"client1", "Other Stream", 7⟩)).2 =
      JSONRepository.list
        ⟨[ClientRecord.scoped ⟨"client1", "Test Stream 1", 1⟩],
          serializeStore [ClientRecord.scoped ⟨"client1", "Test Stream 1", 1⟩]⟩ ∧
    (JSONRepository.putRecord
        ⟨[ClientRecord.scoped ⟨"client1", "Test Stream 1", 1⟩],
          serializeStore [ClientRecord.scoped ⟨"client1", "Test Stream 1", 1⟩]⟩
        (.scoped ⟨"client1", "Other Stream", 7⟩)).2.file =
      (RepoState.mk [ClientRecord.scoped ⟨"client1", "Test Stream 1", 1⟩]
        (serializeStore [ClientRecord.scoped ⟨"client1", "Test Stream 1", 1⟩])).file :=
  put_duplicate_unchanged
    ⟨[ClientRecord.scoped ⟨"client1", "Test Stream 1", 1⟩],
      serializeStore [ClientRecord.scoped ⟨"client1", "Test Stream 1", 1⟩]⟩
    (.scoped ⟨"client1", "Other Stream", 7⟩)
    ⟨ClientRecord.scoped ⟨"client1", "Test Stream 1", 1⟩, by simp, rfl⟩

/-- C3: `get` on a key that no record of the store has fails with
`NotFound` and never returns any record; `get` is a pure function of the
state, so the store after the failed lookup is the store before it. -/
theorem get_absent_notfound (s : RepoState) (k : String)
    (h : ∀ r ∈ s.records, r.key ≠ k) :
    JSONRepository.get s k = .error .NotFound ∧
      ∀ r : ClientRecord, JSONRepository.get s k ≠ .ok r := by
  have h1 : s.records.find? (fun r => r.key == k) = none := by
    rw [List.find?_eq_none]
    intro q hq
    simpa using h q hq
  constructor
  · simp [JSONRepository.get, h1]
  · intro r
    simp [JSONRepository.get, h1]

/-- Closed instance of `get_absent_notfound`: looking up the absent key
`invalid` of the test suite in a store holding `client1`. -/
theorem get_absent_notfound_witness :
    JSONRepository.get
        ⟨[ClientRecord.scoped ⟨"client1", "Test Stream 1", 1⟩],
          serializeStore [ClientRecord.scoped ⟨"client1", "Test Stream 1", 1⟩]⟩
        "invalid" = .error .NotFound ∧
      ∀ r : ClientRecord, JSONRepository.get
        ⟨[ClientRecord.scoped ⟨"client1", "Test Stream 1", 1⟩],
          serializeStore [ClientRecord.scoped ⟨"client1", "Test Stream 1", 1⟩]⟩
        "invalid" ≠ .ok r :=
  get_absent_notfound _ "invalid" (by decide)

/-- C4: on an empty store `list()` returns the empty sequence (never an
error), and after successfully inserting a sequence of records with
pairwise-distinct keys (in that order, and nothing else), `list()`
returns exactly that sequence in insertion order. -/
theorem list_insertion_order (rs : List ClientRecord)
    (h : (rs.map ClientRecord.key).Nodup) :
    JSONRepository.list newRepo = [] ∧
      ∃ s, JSONRepository.insertAll newRepo rs = .ok s ∧
        JSONRepository.list s = rs := by
  have hdist : rs.Pairwise (fun a b => a.key ≠ b.key) := by
    rw [List.Nodup, List.pairwise_map] at h
    exact h
  exact ⟨rfl, ⟨_, insertAll_ok rs newRepo rfl
    (fun _ hq => nomatch hq) hdist, rfl⟩⟩

/-- Closed instance of `list_insertion_order`: the spec's concrete
scenario, inserting `client1`, `client2`, `admin1` in that order. -/
theorem list_insertion_order_witness :
    JSONRepository.list newRepo = [] ∧
      ∃ s, JSONRepository.insertAll newRepo
          [.scoped ⟨"client1", "Test Stream 1", 1⟩,
            .scoped ⟨"client2", "Test Stream 2", 2⟩,
            .admin ⟨"admin1", true⟩] = .ok s ∧
        JSONRepository.list s =
          [.scoped ⟨"client1", "Test Stream 1", 1⟩,
            .scoped ⟨"client2", "Test Stream 2", 2⟩,
            .admin ⟨"admin1", true⟩] :=
  list_insertion_order
    [.scoped ⟨"client1", "Test Stream 1", 1⟩,
      .scoped ⟨"client2", "Test Stream 2", 2⟩,
      .admin ⟨"admin1", true⟩]
    (by decide)

/-- C5: constructing a repository against a storage path with no existing
file succeeds, yielding the empty repository; the persisted file it
creates exists (it is the serialized empty store, which parses back as a
valid store of no records), and `list()` on the fresh repository returns
the empty sequence. -/
theorem construct_creates_empty_store :
    JSONRepository.construct none = .ok newRepo ∧
      JSONRepository.list newRepo = [] ∧
      parseStore newRepo.file = some [] :=
  ⟨rfl, rfl, parseStore_serializeStore []⟩

/-- C6: after any sequence of successful insertions starting from a fresh
repository, constructing a new repository against the persisted file (a
process restart) succeeds and yields identical `list()` output — same
records, same order, same variants. -/
theorem restart_reproduces_list (rs : List ClientRecord) (s : RepoState)
    (h : JSONRepository.insertAll newRepo rs = .ok s) :
    ∃ s2, JSONRepository.construct (some s.file) = .ok s2 ∧
      JSONRepository.list s2 = JSONRepository.list s := by
  have hfile : s.file = serializeStore s.records :=
    insertAll_file_inv rs newRepo s rfl h
  refine ⟨⟨s.records, serializeStore s.records⟩, ?_, rfl⟩
  rw [hfile]
  simp [JSONRepository.construct, parseStore_serializeStore]

/-- Closed instance of `restart_reproduces_list`: restarting after
inserting the scoped client `client1`. -/
theorem restart_reproduces_list_witness :
    ∃ s2, JSONRepository.construct
        (some (RepoState.mk [ClientRecord.scoped ⟨"client1", "Test Stream 1", 1⟩]
          (serializeStore [ClientRecord.scoped ⟨"client1", "Test Stream 1", 1⟩])).file) =
        .ok s2 ∧
      JSONRepository.list s2 = JSONRepository.list
        ⟨[ClientRecord.scoped ⟨"client1", "Test Stream 1", 1⟩],
          serializeStore [ClientRecord.scoped ⟨"client1", "Test Stream 1", 1⟩]⟩ :=
  restart_reproduces_list [.scoped ⟨"client1", "Test Stream 1", 1⟩]
    ⟨[ClientRecord.scoped ⟨"client1", "Test Stream 1", 1⟩],
      serializeStore [ClientRecord.scoped ⟨"client1", "Test Stream 1", 1⟩]⟩
    rfl

/-- C7: constructing a repository against a persisted file that cannot be
parsed or whose records fail schema validation fails with `CorruptStore`;
it never succeeds with a partial or empty index. -/
theorem corrupt_store_fails_construction (j : Json)
    (h : parseStore j = none) :
    JSONRepository.construct (some j) = .error .CorruptStore ∧
      ∀ s, JSONRepository.construct (some j) ≠ .ok s := by
  constructor
  · simp [JSONRepository.construct, h]
  · intro s
    simp [JSONRepository.construct, h]

/-- Closed instance of `corrupt_store_fails_construction`: a truncated
record (a scoped entry missing its `stream` and `proposal_no` fields)
makes construction fail. -/
theorem corrupt_store_fails_construction_witness :
    JSONRepository.construct
        (some (.arr [.obj [("kind", .str "scoped"), ("key", .str "client1")]])) =
      .error .CorruptStore ∧
      ∀ s, JSONRepository.construct
        (some (.arr [.obj [("kind", .str "scoped"), ("key", .str "client1")]])) ≠
        .ok s :=
  corrupt_store_fails_construction
    (.arr [.obj [("kind", .str "scoped"), ("key", .str "client1")]]) rfl

/-- C8: when both the `content` body and the `topic` query parameter of
the `update_message` route are absent or empty strings, the route fails
with HTTP 400 and the underlying `client.update_message` is never called;
an explicitly provided empty-string content with no topic is rejected the
same as an absent content. -/
theorem update_message_requires_content_or_topic (mid : Int)
    (pm : api.PropagateMode) (content topic : Option String)
    (hc : content = none ∨ content = some "")
    (ht : topic = none ∨ topic = some "") :
    api.update_message mid pm content topic =
      .httpError 400
        ("Either content (update message text) or topic (rename message topic) "
          ++ "must be provided") ∧
      ∀ call, api.update_message mid pm content topic ≠ .ok call := by
  have hct : api.truthyStr content = false := by
    rcases hc with h | h <;> subst h <;> rfl
  have htt : api.truthyStr topic = false := by
    rcases ht with h | h <;> subst h <;> rfl
  constructor
  · simp [api.update_message, hct, htt]
  · intro call
    simp [api.update_message, hct, htt]

/-- Closed instance of `update_message_requires_content_or_topic`: an
explicitly provided empty-string content with no topic is rejected with
HTTP 400. -/
theorem update_message_requires_content_or_topic_witness :
    api.update_message 1 .change_one (some "") none =
      .httpError 400
        ("Either content (update message text) or topic (rename message topic) "
          ++ "must be provided") ∧
      ∀ call, api.update_message 1 .change_one (some "") none ≠ .ok call :=
  update_message_requires_content_or_topic 1 .change_one (some "") none
    (Or.inr rfl) (Or.inl rfl)

/-- C9: the authentication dependency of the API router distinguishes the
two failure cases: an absent `X-API-key` header fails with HTTP 403
("Not authenticated") without consulting the client store (the 403 holds
for every store), and a present key that resolves to no client record
fails with HTTP 401 ("Unauthorised"). -/
theorem get_client_distinguishes_auth_failures (store : List ClientRecord)
    (k : String) (h : ∀ r ∈ store, r.key ≠ k) :
    api.get_client none store = .httpError 403 "Not authenticated" ∧
      api.get_client (some k) store = .httpError 401 "Unauthorised" := by
  constructor
  · rfl
  · have h1 : store.find? (fun r => r.key == k) = none := by
      rw [List.find?_eq_none]
      intro q hq
      simpa using h q hq
    simp [api.get_client, h1]

/-- Closed instance of `get_client_distinguishes_auth_failures`: a store
holding only `client1`, queried with no header and with the unknown key
`nope`. -/
theorem get_client_distinguishes_auth_failures_witness :
    api.get_client none [ClientRecord.scoped ⟨"client1", "Test Stream 1", 1⟩] =
      .httpError 403 "Not authenticated" ∧
      api.get_client (some "nope")
        [ClientRecord.scoped ⟨"client1", "Test Stream 1", 1⟩] =
      .httpError 401 "Unauthorised" :=
  get_client_distinguishes_auth_failures
    [ClientRecord.scoped ⟨"client1", "Test Stream 1", 1⟩] "nope" (by decide)

/-- C10: the `/me` endpoint never reveals the client's API key: its
response body is the record's fields without the `key` field, so any two
client records that differ only in their key serialize to identical
response bodies. -/
theorem get_me_excludes_key (c1 c2 : ScopedClient)
    (hs : c1.stream = c2.stream) (hp : c1.proposal_no = c2.proposal_no) :
    api.get_me c1 =
      .obj [("stream", .str c1.stream), ("proposal_no", .num c1.proposal_no)] ∧
      api.get_me c1 = api.get_me c2 := by
  constructor
  · rfl
  · simp only [api.get_me, api.scopedClientFields, hs, hp]
    rfl

/-- Closed instance of `get_me_excludes_key`: two clients that differ only
in their key produce identical `/me` bodies, with no `key` field. -/
theorem get_me_excludes_key_witness :
    api.get_me ⟨"key-one", "Test Stream 1", 1⟩ =
      .obj [("stream", .str "Test Stream 1"), ("proposal_no", .num 1)] ∧
      api.get_me ⟨"key-one", "Test Stream 1", 1⟩ =
        api.get_me ⟨"key-two", "Test Stream 1", 1⟩ :=
  get_me_excludes_key ⟨"key-one", "Test Stream 1", 1⟩
    ⟨"key-two", "Test Stream 1", 1⟩ rfl rfl

end ZulipProxy
